import Mathlib

/-!
Verification of the IPD tournament simulator (`tournament.py`,
`strategy_template.py`, `main.py`) against its specification.

Conventions of the shallow embedding:
* a move is `Fin 2` (0 = cooperate, 1 = defect);
* Python floats (payoffs, discount factors, `random.random()` draws) are
  modelled as rationals `ℚ`; none of the verified claims depends on
  floating-point rounding;
* the two payoff matrices `payoff_matrices = [matrix_p1, matrix_p2]` are the
  fields `m1`, `m2` of `PayoffMatrices`;
* the heterogeneous Python list `Player.strategies` (six callables, where
  slots 1, 3, 5 are invoked with `(history, myhistory, discount,
  payoff_matrices)` and slots 0, 2, 4 with `(discount, payoff_matrices)`) is
  modelled as six typed fields `s0`–`s5`, blind slots having the
  two-argument shape and memory slots the four-argument shape, exactly as
  `Player.play` invokes them;
* the `random.random()` values consumed by the stochastic break check of
  `Tournament.evaluate` (one per executed check, i.e. one per round index
  `r ≥ 1` reached in modes 4 and 5) are supplied as explicit sequences
  `Nat → ℚ`.
-/

namespace IPD

abbrev Move := Fin 2

/-- `payoff_matrices`: the pair `[matrix_p1, matrix_p2]` of 2×2 matrices;
`m1 a b` is `payoff_matrices[0][a][b]` and `m2 a b` is
`payoff_matrices[1][a][b]`. -/
structure PayoffMatrices where
  m1 : Move → Move → ℚ
  m2 : Move → Move → ℚ

/-- The calling convention of the blind slots 0, 2, 4 of
`Player.strategies`: `(discount, payoff_matrices)`. -/
abbrev BlindStrategy := ℚ → PayoffMatrices → Move

/-- The calling convention of the memory slots 1, 3, 5 of
`Player.strategies`: `(history, myhistory, discount, payoff_matrices)`. -/
abbrev MemoryStrategy := List Move → List Move → ℚ → PayoffMatrices → Move

/-- `Player`: the `strategies` list (six entries, indexed by game mode) as
six typed fields; the `teamname` string plays no role in any claim and is
omitted. -/
structure Player where
  s0 : BlindStrategy
  s1 : MemoryStrategy
  s2 : BlindStrategy
  s3 : MemoryStrategy
  s4 : BlindStrategy
  s5 : MemoryStrategy

/-- `Player.play`: dispatch on the game mode; modes 1, 3, 5 pass
`(history, myhistory, discount, payoff_matrices)` to the mode's slot, the
remaining (blind) modes pass `(discount, payoff_matrices)` only. -/
def Player.play (p : Player) (pm : PayoffMatrices) (history myhistory : List Move)
    (game_mode : Fin 6) (discount : ℚ) : Move :=
  if game_mode = 1 then p.s1 history myhistory discount pm
  else if game_mode = 3 then p.s3 history myhistory discount pm
  else if game_mode = 5 then p.s5 history myhistory discount pm
  else if game_mode = 0 then p.s0 discount pm
  else if game_mode = 2 then p.s2 discount pm
  else p.s4 discount pm

/-- `Tournament`: participants, payoff matrices and the discount factor
(`discount_factor=1.0` is the Python constructor's default). -/
structure Tournament where
  players : List Player
  pm : PayoffMatrices
  discount_factor : ℚ

/-- `Tournament.play_round`: one memory round.  Each player sees the
opponent's history as `history` and its own as `myhistory`; the payoffs are
`payoff_matrices[0][move1][move2]` and `payoff_matrices[1][move1][move2]`. -/
def Tournament.play_round (t : Tournament) (p1 p2 : Player) (game_mode : Fin 6)
    (history1 history2 : List Move) (discount : ℚ) : Move × Move × ℚ × ℚ :=
  let move1 := p1.play t.pm history2 history1 game_mode discount
  let move2 := p2.play t.pm history1 history2 game_mode discount
  (move1, move2, t.pm.m1 move1 move2, t.pm.m2 move1 move2)

/-- `Tournament.blind_round`: one blind round.  The Python call leaves
`history`/`myhistory` at their `None` defaults; since the blind modes never
pass them to the strategy, `[]` stands in for `None` here.  The payoffs are
`payoff_matrices[0][move1][move2]` and `payoff_matrices[1][move1][move2]`. -/
def Tournament.blind_round (t : Tournament) (p1 p2 : Player) (game_mode : Fin 6)
    (discount : ℚ) : Move × Move × ℚ × ℚ :=
  let move1 := p1.play t.pm [] [] game_mode discount
  let move2 := p2.play t.pm [] [] game_mode discount
  (move1, move2, t.pm.m1 move1 move2, t.pm.m2 move1 move2)

/-- One iteration of the `while True` body of `Tournament.evaluate` for
round index `r`: play a blind round (modes 0, 2, 4) or a memory round with
the current histories appended to afterwards (modes 1, 3, 5), and weight the
two payoffs by `1.0` (modes 0, 1, 4, 5) or `disc ** r` (modes 2, 3).
Returns the pair of appended scores and the updated histories. -/
def Tournament.roundStep (t : Tournament) (p1 p2 : Player) (mode : Fin 6)
    (disc : ℚ) (r : Nat) (h1 h2 : List Move) : (ℚ × ℚ) × List Move × List Move :=
  let weight : ℚ := if mode = 0 ∨ mode = 1 ∨ mode = 4 ∨ mode = 5 then 1 else disc ^ r
  if mode = 0 ∨ mode = 2 ∨ mode = 4 then
    let res := t.blind_round p1 p2 mode disc
    ((res.2.2.1 * weight, res.2.2.2 * weight), h1, h2)
  else
    let res := t.play_round p1 p2 mode h1 h2 disc
    ((res.2.2.1 * weight, res.2.2.2 * weight), h1 ++ [res.1], h2 ++ [res.2.1])

/-- `n` consecutive iterations of the `evaluate` loop body starting at round
index `r` with histories `h1`, `h2`; returns the two score lists appended to
`scores1[mode]` and `scores2[mode]` over those iterations. -/
def Tournament.playRounds (t : Tournament) (p1 p2 : Player) (mode : Fin 6) (disc : ℚ) :
    Nat → Nat → List Move → List Move → List ℚ × List ℚ
  | 0, _, _, _ => ([], [])
  | n + 1, r, h1, h2 =>
    let step := t.roundStep p1 p2 mode disc r h1 h2
    let rest := t.playRounds p1 p2 mode disc n (r + 1) step.2.1 step.2.2
    (step.1.1 :: rest.1, step.1.2 :: rest.2)

/-- The break condition of line 116 of `tournament.py` at round index `r`:
the loop breaks iff `r > 0` and the value drawn by `random.random()` for
that check exceeds `disc`. -/
def stopRound (disc : ℚ) (draw : Nat → ℚ) (r : Nat) : Prop :=
  1 ≤ r ∧ disc < draw r

instance stopRound.decPred (disc : ℚ) (draw : Nat → ℚ) :
    DecidablePred (stopRound disc draw) :=
  fun r => inferInstanceAs (Decidable (1 ≤ r ∧ disc < draw r))

/-- Iteration count of the `evaluate` loop for the fixed-length modes 0–3:
the loop plays round `r`, increments `r`, and breaks once `r ≥ rounds`, so
it always runs at least once and otherwise exactly `rounds` times. -/
def detRounds (rounds : Nat) : Nat := max 1 rounds

/-- Iteration count of the `evaluate` loop for the stochastic modes 4–5:
round 0 is always played (the break check requires `r > 0`), and the loop
breaks at the first round index `r ≥ 1` whose draw exceeds `disc`.  Defined
under the assumption that such an index exists; when it does not (see the
termination claim) the Python loop never exits. -/
def stochRounds (disc : ℚ) (draw : Nat → ℚ) (h : ∃ r, stopRound disc draw r) : Nat :=
  Nat.find h

/-- The `random.random()` outcomes consumed by the break checks of modes 4
and 5 within one `evaluate` call. -/
structure Draws where
  d4 : Nat → ℚ
  d5 : Nat → ℚ

/-- Number of rounds `Tournament.evaluate` plays in each mode. -/
def Tournament.modeRounds (t : Tournament) (rounds : Nat) (dr : Draws)
    (h4 : ∃ r, stopRound t.discount_factor dr.d4 r)
    (h5 : ∃ r, stopRound t.discount_factor dr.d5 r) (mode : Fin 6) : Nat :=
  if mode = 4 then stochRounds t.discount_factor dr.d4 h4
  else if mode = 5 then stochRounds t.discount_factor dr.d5 h5
  else detRounds rounds

/-- `Tournament.evaluate`: for each of the six modes, play the loop of lines
110–129 and collect `scores1[mode]` and `scores2[mode]`.  The effective
discount is `1.0` for modes 0–1 and `discount_factor` otherwise; histories
start empty and round indices start at 0.  The hypotheses assert that each
stochastic mode's draw sequence eventually exceeds the discount, which is
exactly the condition for the Python loop to exit. -/
def Tournament.evaluate (t : Tournament) (p1 p2 : Player) (rounds : Nat) (dr : Draws)
    (h4 : ∃ r, stopRound t.discount_factor dr.d4 r)
    (h5 : ∃ r, stopRound t.discount_factor dr.d5 r) :
    (Fin 6 → List ℚ) × (Fin 6 → List ℚ) :=
  let modeScores : Fin 6 → List ℚ × List ℚ := fun mode =>
    let disc := if mode = 0 ∨ mode = 1 then 1 else t.discount_factor
    t.playRounds p1 p2 mode disc (t.modeRounds rounds dr h4 h5 mode) 0 [] []
  (fun m => (modeScores m).1, fun m => (modeScores m).2)

/-- A node of the probabilistic suffix tree (`PSTNode.__init__`): an
occurrence count and the four children of the dictionary keyed by the move
pair `(my move, opponent move) ∈ {0,1} × {0,1}`, in the fixed insertion
order `(0,0), (0,1), (1,0), (1,1)`. -/
inductive PSTNode : Type where
  | mk (count : Int) (c00 c01 c10 c11 : Option PSTNode)

/-- A fresh `PSTNode()`: count 0, all four children `None`. -/
def PSTNode.empty : PSTNode := .mk 0 none none none none

/-- A child key `(my move, opponent move)` of a `PSTNode`. -/
abbrev Key := Move × Move

def PSTNode.count : PSTNode → Int
  | .mk c _ _ _ _ => c

/-- `node.children[k]`. -/
def PSTNode.child (n : PSTNode) (k : Key) : Option PSTNode :=
  match n with
  | .mk _ a b c d =>
    if k.1 = 0 then (if k.2 = 0 then a else b)
    else (if k.2 = 0 then c else d)

/-- `node.children[k] = v`. -/
def PSTNode.setChild (n : PSTNode) (k : Key) (v : Option PSTNode) : PSTNode :=
  match n with
  | .mk cnt a b c d =>
    if k.1 = 0 then (if k.2 = 0 then .mk cnt v b c d else .mk cnt a v c d)
    else (if k.2 = 0 then .mk cnt a b v d else .mk cnt a b c v)

def PSTNode.incCount : PSTNode → PSTNode
  | .mk c a b cc d => .mk (c + 1) a b cc d

/-- The inner `for index in range(self.depth)` loop of `update` for one
window: at each key, create the child if absent, step into it and increment
its count, then continue with the remaining keys inside that child. -/
def addPath (n : PSTNode) (ks : List Key) : PSTNode :=
  match ks with
  | [] => n
  | k :: rest =>
    let stepped := ((n.child k).getD PSTNode.empty).incCount
    n.setChild k (some (addPath stepped rest))

/-- `l[i]` for the non-negative indices `start + index` used in `update`;
those accesses are in range whenever the two histories have equal length
(as they do in every round of the tournament), so the default `0` is never
read there. -/
def idx (l : List Move) (i : Nat) : Move := l.getD i 0

/-- `l[-d]` (Python negative indexing), i.e. `l[len(l) - d]`, for the
context reads of `traverse`. -/
def negIdx (l : List Move) (d : Nat) : Move := l.getD (l.length - d) 0

/-- `l[-n:]`: the trailing `n` elements (the whole list when `n = 0` or
`n ≥ len(l)`, matching the Python slice). -/
def lastN (l : List Move) (n : Nat) : List Move :=
  if n = 0 then l else l.drop (l.length - n)

/-- The key sequence inserted for window `start` by
`probabilistic_suffix_tree.update`: the pairs
`(myhistory[start + index], history[start + index])` for `index < depth`. -/
def windowKeys (history myhistory : List Move) (start depth : Nat) : List Key :=
  (List.range depth).map fun i => (idx myhistory (start + i), idx history (start + i))

/-- The suffix tree object: configured depth and root.  The write-only
`passes` diagnostic counter of the Python class is omitted. -/
structure probabilistic_suffix_tree where
  depth : Nat
  root : PSTNode

/-- `probabilistic_suffix_tree.update`: insert one window per
`start ∈ range(len(history) - depth - 1)` (no windows at all when that
bound is not positive, as in Python where `range` of a non-positive bound
is empty). -/
def probabilistic_suffix_tree.update (t : probabilistic_suffix_tree)
    (history myhistory : List Move) : probabilistic_suffix_tree :=
  { t with
    root := (List.range (history.length - t.depth - 1)).foldl
      (fun n start => addPath n (windowKeys history myhistory start t.depth)) t.root }

/-- `probabilistic_suffix_tree.__init__`: an empty root updated once with
the given histories. -/
def probabilistic_suffix_tree.init (history myhistory : List Move)
    (depth : Nat) : probabilistic_suffix_tree :=
  probabilistic_suffix_tree.update ⟨depth, PSTNode.empty⟩ history myhistory

/-- The result dictionary of `traverse`: the four child counts, in the key
order `(0,0), (0,1), (1,0), (1,1)`. -/
structure Counts where
  k00 : Int
  k01 : Int
  k10 : Int
  k11 : Int
deriving DecidableEq

/-- The early-return value of `traverse`: all four counts zero. -/
def zeroCounts : Counts := ⟨0, 0, 0, 0⟩

/-- `child.count if child is not None else 0`. -/
def childCount (n : PSTNode) (k : Key) : Int :=
  match n.child k with
  | some c => c.count
  | none => 0

/-- The result built at the reached node: for each of the four keys, the
child's count, or 0 for a missing child. -/
def childCounts (n : PSTNode) : Counts :=
  ⟨childCount n (0, 0), childCount n (0, 1), childCount n (1, 0), childCount n (1, 1)⟩

/-- The walk loop of `traverse`: `for d in range(depth, 1, -1)` steps to the
child keyed `(context1[-d], context2[-d])`, returning `none` as soon as that
child is missing (triggering the all-zero early return). -/
def traverseGo (c1 c2 : List Move) : Nat → PSTNode → Option PSTNode
  | 0, n => some n
  | 1, n => some n
  | d + 2, n =>
    match n.child (negIdx c1 (d + 2), negIdx c2 (d + 2)) with
    | none => none
    | some c => traverseGo c1 c2 (d + 1) c

/-- `probabilistic_suffix_tree.traverse`. -/
def probabilistic_suffix_tree.traverse (t : probabilistic_suffix_tree)
    (depth : Nat) (context1 context2 : List Move) : Counts :=
  match traverseGo context1 context2 depth t.root with
  | none => zeroCounts
  | some n => childCounts n

def Counts.total (c : Counts) : Int := c.k00 + c.k01 + c.k10 + c.k11

/-- `max(probabilities.items(), key=lambda x: x[1])[0]`: Python's `max`
keeps the earliest of equally valued items, so this is the first key in the
fixed order `(0,0), (0,1), (1,0), (1,1)` whose value is maximal. -/
def argmaxKey (p00 p01 p10 p11 : ℚ) : Key :=
  let best : Key × ℚ := (((0 : Move), (0 : Move)), p00)
  let best := if p01 > best.2 then (((0 : Move), (1 : Move)), p01) else best
  let best := if p10 > best.2 then (((1 : Move), (0 : Move)), p10) else best
  let best := if p11 > best.2 then (((1 : Move), (1 : Move)), p11) else best
  best.1

/-- `probabilistic_suffix_tree.query`: update with the full histories, take
the trailing `depth` moves of each as context, traverse, and predict 0
(cooperate) when the total count is 0 or the argmax key's opponent-move
component is 0, else 1.  The tree object's across-call mutation is captured
by returning only the predicted move of a single call; the verified claims
depend only on single-call behaviour. -/
def probabilistic_suffix_tree.query (t : probabilistic_suffix_tree)
    (history myhistory : List Move) : Move :=
  let t' := t.update history myhistory
  let context1 := lastN myhistory t'.depth
  let context2 := lastN history t'.depth
  let children_counts := t'.traverse t'.depth context1 context2
  let total := children_counts.total
  if total = 0 then 0
  else
    let best := argmaxKey ((children_counts.k00 : ℚ) / (total : ℚ))
      ((children_counts.k01 : ℚ) / (total : ℚ))
      ((children_counts.k10 : ℚ) / (total : ℚ))
      ((children_counts.k11 : ℚ) / (total : ℚ))
    if best = ((0 : Move), (0 : Move)) ∨ best = ((1 : Move), (0 : Move)) then 0 else 1

/-- `strategy0`: always defect. -/
def strategy0 : BlindStrategy := fun _ _ => 1

/-- `strategy1`: below 20 observed opponent moves, play
`history[-1] if history else 1`; otherwise consult the suffix-tree
predictor (depth 5).  The `hasattr` lazy caching of the tree across calls
is not modelled: this is the first-call behaviour, which is all the
verified claims depend on. -/
def strategy1 : MemoryStrategy := fun history myhistory _ _ =>
  if history.length < 20 then
    if h : history = [] then 1 else history.getLast h
  else
    let pst := probabilistic_suffix_tree.init history myhistory 5
    let prediction := pst.query history myhistory
    if prediction = 0 then 0 else 1

/-- `strategy2`: always defect. -/
def strategy2 : BlindStrategy := fun _ _ => 1

/-- `strategy3`: same body as `strategy1` (the Python functions are
textually identical up to the name of the cached attribute). -/
def strategy3 : MemoryStrategy := fun history myhistory _ _ =>
  if history.length < 20 then
    if h : history = [] then 1 else history.getLast h
  else
    let pst := probabilistic_suffix_tree.init history myhistory 5
    let prediction := pst.query history myhistory
    if prediction = 0 then 0 else 1

/-- `strategy4`: always defect. -/
def strategy4 : BlindStrategy := fun _ _ => 1

/-- `strategy5`: same body as `strategy1`. -/
def strategy5 : MemoryStrategy := fun history myhistory _ _ =>
  if history.length < 20 then
    if h : history = [] then 1 else history.getLast h
  else
    let pst := probabilistic_suffix_tree.init history myhistory 5
    let prediction := pst.query history myhistory
    if prediction = 0 then 0 else 1

/-- A player all of whose strategies cooperate; used as the (never read)
default of out-of-range `List.getD` accesses below. -/
def defaultPlayer : Player :=
  ⟨fun _ _ => 0, fun _ _ _ _ => 0, fun _ _ => 0,
   fun _ _ _ _ => 0, fun _ _ => 0, fun _ _ _ _ => 0⟩

/-- `Tournament.tournament` (lines 142–149): the nested loops visit every
pair `i < j < n` exactly once, storing `board[i][j] := s1` and
`board[j][i] := s2` from a single `evaluate` call; every other entry keeps
its initial six empty lists.  `dr i j` is the randomness consumed by the
match of the pair `(i, j)`, `i < j`. -/
def Tournament.tournament (t : Tournament) (rounds : Nat) (dr : Nat → Nat → Draws)
    (H4 : ∀ i j, ∃ r, stopRound t.discount_factor (dr i j).d4 r)
    (H5 : ∀ i j, ∃ r, stopRound t.discount_factor (dr i j).d5 r)
    (i j : Nat) : Fin 6 → List ℚ :=
  if i < j ∧ j < t.players.length then
    (t.evaluate (t.players.getD i defaultPlayer) (t.players.getD j defaultPlayer)
      rounds (dr i j) (H4 i j) (H5 i j)).1
  else if j < i ∧ i < t.players.length then
    (t.evaluate (t.players.getD j defaultPlayer) (t.players.getD i defaultPlayer)
      rounds (dr j i) (H4 j i) (H5 j i)).2
  else fun _ => []

/-! Concrete fixtures from `main.py`. -/

/-- The payoff matrices of `main.py`: `payoff_p1 = [[3, 0], [5, 1]]`,
`payoff_p2 = [[3, 5], [0, 1]]`. -/
def pmMain : PayoffMatrices :=
  ⟨fun a b => if a = 0 then (if b = 0 then 3 else 0) else (if b = 0 then 5 else 1),
   fun a b => if a = 0 then (if b = 0 then 3 else 5) else (if b = 0 then 0 else 1)⟩

/-- `My_Player`: the six default template strategies. -/
def myPlayer : Player := ⟨strategy0, strategy1, strategy2, strategy3, strategy4, strategy5⟩

/-- `DefectBot`: `always_defect` in all six slots. -/
def defectBot : Player :=
  ⟨fun _ _ => 1, fun _ _ _ _ => 1, fun _ _ => 1,
   fun _ _ _ _ => 1, fun _ _ => 1, fun _ _ _ _ => 1⟩

/-- A draw sequence whose every value exceeds any discount factor used in
the fixtures, so each stochastic mode stops at its first break check. -/
def drawsTwo : Draws := ⟨fun _ => 2, fun _ => 2⟩

/-- A concrete tournament: the `main.py` payoff matrices and discount
factor `0.95`, with `DefectBot` and `My_Player` as participants. -/
def TMain : Tournament := ⟨[defectBot, myPlayer], pmMain, 0.95⟩

def TMain.h4 : ∃ r, stopRound TMain.discount_factor drawsTwo.d4 r :=
  ⟨1, le_refl 1, by norm_num [TMain, drawsTwo]⟩

def TMain.h5 : ∃ r, stopRound TMain.discount_factor drawsTwo.d5 r :=
  ⟨1, le_refl 1, by norm_num [TMain, drawsTwo]⟩

/-- The same tournament with discount factor `1.0` (the constructor
default), for the discount-1 equivalence claim. -/
def TOne : Tournament := ⟨[defectBot, myPlayer], pmMain, 1⟩

def TOne.h4 : ∃ r, stopRound TOne.discount_factor drawsTwo.d4 r :=
  ⟨1, le_refl 1, by norm_num [TOne, drawsTwo]⟩

def TOne.h5 : ∃ r, stopRound TOne.discount_factor drawsTwo.d5 r :=
  ⟨1, le_refl 1, by norm_num [TOne, drawsTwo]⟩

/-- Follow a list of child keys down from a node, `none` as soon as a child
is missing; the common shape of the `traverse` walk and of the walk the
spec describes, used to compare the two. -/
def walkNode : PSTNode → List Key → Option PSTNode
  | n, [] => some n
  | n, k :: ks =>
    match n.child k with
    | none => none
    | some c => walkNode c ks

/-- The context keys `(c1[-(d - i)], c2[-(d - i)])` for `i < count`:
`count` context pairs read off from offset `d` (the oldest end of the
trailing context) towards the most recent element. -/
def offsetKeys (c1 c2 : List Move) (d count : Nat) : List Key :=
  (List.range count).map fun i => (negIdx c1 (d - i), negIdx c2 (d - i))

/-- The count map read at the end of a walk: the four child counts of the
reached node, or the all-zero map if the walk failed. -/
def countsAt : Option PSTNode → Counts
  | none => zeroCounts
  | some n => childCounts n

/-- The walk that the claim (and §4.2 of the spec) describes `traverse` as
performing: consume exactly `depth` context pairs, from the oldest element
of the trailing-`depth` context through the most recent element, then read
the four child counts at the reached node.  Stated only to be compared
against the implemented `traverse`. -/
def traverseDepthSteps (t : probabilistic_suffix_tree) (depth : Nat)
    (context1 context2 : List Move) : Counts :=
  countsAt (walkNode t.root (offsetKeys context1 context2 depth depth))

/-- A depth-2 tree built from the history `[0,0,0,0,0]` (two windows, both
inserting the key path `(0,0), (0,0)`), on which the implemented walk and
the claimed depth-step walk read counts at different nodes. -/
def pstCE : probabilistic_suffix_tree :=
  probabilistic_suffix_tree.init [0, 0, 0, 0, 0] [0, 0, 0, 0, 0] 2

/-- A player whose mode-0 slot cooperates while its mode-2 slot defects:
a legal participant on which modes 0 and 2 differ even at discount 1. -/
def splitPlayer : Player :=
  ⟨fun _ _ => 0, fun _ _ _ _ => 0, fun _ _ => 1,
   fun _ _ _ _ => 0, fun _ _ => 1, fun _ _ _ _ => 0⟩


/-! Helper lemmas. -/

lemma update_depth (t : probabilistic_suffix_tree) (history myhistory : List Move) :
    (t.update history myhistory).depth = t.depth := rfl

lemma offsetKeys_length (c1 c2 : List Move) (d count : Nat) :
    (offsetKeys c1 c2 d count).length = count := by
  simp [offsetKeys]

lemma offsetKeys_succ (c1 c2 : List Move) (d count : Nat) :
    offsetKeys c1 c2 (d + 1) (count + 1) =
      (negIdx c1 (d + 1), negIdx c2 (d + 1)) :: offsetKeys c1 c2 d count := by
  simp only [offsetKeys, List.range_succ_eq_map, List.map_cons, List.map_map]
  refine congrArg₂ _ (by simp) ?_
  apply List.map_congr_left
  intro i _
  simp [Function.comp, Nat.succ_sub_succ]

lemma traverseGo_eq_walk (c1 c2 : List Move) :
    ∀ (d : Nat) (n : PSTNode),
      traverseGo c1 c2 d n = walkNode n (offsetKeys c1 c2 d (d - 1))
  | 0, n => by simp [traverseGo, offsetKeys, walkNode]
  | 1, n => by simp [traverseGo, offsetKeys, walkNode]
  | d + 2, n => by
    have hk : offsetKeys c1 c2 (d + 2) (d + 1) =
        (negIdx c1 (d + 2), negIdx c2 (d + 2)) :: offsetKeys c1 c2 (d + 1) d :=
      offsetKeys_succ c1 c2 (d + 1) d
    show traverseGo c1 c2 (d + 2) n = walkNode n (offsetKeys c1 c2 (d + 2) (d + 1))
    rw [hk]
    simp only [traverseGo, walkNode]
    cases hc : n.child (negIdx c1 (d + 2), negIdx c2 (d + 2)) with
    | none => rfl
    | some c =>
      have ih := traverseGo_eq_walk c1 c2 (d + 1) c
      simpa using ih

lemma playRounds_length (t : Tournament) (p1 p2 : Player) (mode : Fin 6) (disc : ℚ) :
    ∀ (n r : Nat) (h1 h2 : List Move),
      (t.playRounds p1 p2 mode disc n r h1 h2).1.length = n ∧
      (t.playRounds p1 p2 mode disc n r h1 h2).2.length = n
  | 0, _, _, _ => by simp [Tournament.playRounds]
  | n + 1, r, h1, h2 => by
    have ih := playRounds_length t p1 p2 mode disc n (r + 1)
      (t.roundStep p1 p2 mode disc r h1 h2).2.1 (t.roundStep p1 p2 mode disc r h1 h2).2.2
    simp [Tournament.playRounds, ih.1, ih.2]

lemma evaluate_fst (t : Tournament) (p1 p2 : Player) (rounds : Nat) (dr : Draws)
    (h4 : ∃ r, stopRound t.discount_factor dr.d4 r)
    (h5 : ∃ r, stopRound t.discount_factor dr.d5 r) (mode : Fin 6) :
    (t.evaluate p1 p2 rounds dr h4 h5).1 mode =
      (t.playRounds p1 p2 mode (if mode = 0 ∨ mode = 1 then 1 else t.discount_factor)
        (t.modeRounds rounds dr h4 h5 mode) 0 [] []).1 := rfl

lemma evaluate_snd (t : Tournament) (p1 p2 : Player) (rounds : Nat) (dr : Draws)
    (h4 : ∃ r, stopRound t.discount_factor dr.d4 r)
    (h5 : ∃ r, stopRound t.discount_factor dr.d5 r) (mode : Fin 6) :
    (t.evaluate p1 p2 rounds dr h4 h5).2 mode =
      (t.playRounds p1 p2 mode (if mode = 0 ∨ mode = 1 then 1 else t.discount_factor)
        (t.modeRounds rounds dr h4 h5 mode) 0 [] []).2 := rfl

lemma evaluate_fst_length (t : Tournament) (p1 p2 : Player) (rounds : Nat) (dr : Draws)
    (h4 : ∃ r, stopRound t.discount_factor dr.d4 r)
    (h5 : ∃ r, stopRound t.discount_factor dr.d5 r) (mode : Fin 6) :
    ((t.evaluate p1 p2 rounds dr h4 h5).1 mode).length =
      t.modeRounds rounds dr h4 h5 mode := by
  rw [evaluate_fst]
  exact (playRounds_length t p1 p2 mode _ _ 0 [] []).1

lemma evaluate_snd_length (t : Tournament) (p1 p2 : Player) (rounds : Nat) (dr : Draws)
    (h4 : ∃ r, stopRound t.discount_factor dr.d4 r)
    (h5 : ∃ r, stopRound t.discount_factor dr.d5 r) (mode : Fin 6) :
    ((t.evaluate p1 p2 rounds dr h4 h5).2 mode).length =
      t.modeRounds rounds dr h4 h5 mode := by
  rw [evaluate_snd]
  exact (playRounds_length t p1 p2 mode _ _ 0 [] []).2

lemma modeRounds_det (t : Tournament) (rounds : Nat) (dr : Draws)
    (h4 : ∃ r, stopRound t.discount_factor dr.d4 r)
    (h5 : ∃ r, stopRound t.discount_factor dr.d5 r) (mode : Fin 6)
    (hm : mode = 0 ∨ mode = 1 ∨ mode = 2 ∨ mode = 3) :
    t.modeRounds rounds dr h4 h5 mode = detRounds rounds := by
  rcases hm with h | h | h | h <;> subst h <;> rfl

lemma roundStep_mode0 (t : Tournament) (p1 p2 : Player) (disc : ℚ) (r : Nat)
    (h1 h2 : List Move) :
    t.roundStep p1 p2 0 disc r h1 h2 =
      ((t.pm.m1 (p1.s0 disc t.pm) (p2.s0 disc t.pm) * 1,
        t.pm.m2 (p1.s0 disc t.pm) (p2.s0 disc t.pm) * 1), h1, h2) := rfl

lemma roundStep_mode2 (t : Tournament) (p1 p2 : Player) (disc : ℚ) (r : Nat)
    (h1 h2 : List Move) :
    t.roundStep p1 p2 2 disc r h1 h2 =
      ((t.pm.m1 (p1.s2 disc t.pm) (p2.s2 disc t.pm) * disc ^ r,
        t.pm.m2 (p1.s2 disc t.pm) (p2.s2 disc t.pm) * disc ^ r), h1, h2) := rfl

lemma roundStep_mode1 (t : Tournament) (p1 p2 : Player) (disc : ℚ) (r : Nat)
    (h1 h2 : List Move) :
    t.roundStep p1 p2 1 disc r h1 h2 =
      ((t.pm.m1 (p1.s1 h2 h1 disc t.pm) (p2.s1 h1 h2 disc t.pm) * 1,
        t.pm.m2 (p1.s1 h2 h1 disc t.pm) (p2.s1 h1 h2 disc t.pm) * 1),
       h1 ++ [p1.s1 h2 h1 disc t.pm], h2 ++ [p2.s1 h1 h2 disc t.pm]) := rfl

lemma roundStep_mode3 (t : Tournament) (p1 p2 : Player) (disc : ℚ) (r : Nat)
    (h1 h2 : List Move) :
    t.roundStep p1 p2 3 disc r h1 h2 =
      ((t.pm.m1 (p1.s3 h2 h1 disc t.pm) (p2.s3 h1 h2 disc t.pm) * disc ^ r,
        t.pm.m2 (p1.s3 h2 h1 disc t.pm) (p2.s3 h1 h2 disc t.pm) * disc ^ r),
       h1 ++ [p1.s3 h2 h1 disc t.pm], h2 ++ [p2.s3 h1 h2 disc t.pm]) := rfl

lemma playRounds_two_eq_zero (t : Tournament) (p1 p2 : Player)
    (hA : p1.s2 = p1.s0) (hB : p2.s2 = p2.s0) :
    ∀ (n r : Nat) (h1 h2 : List Move),
      t.playRounds p1 p2 2 1 n r h1 h2 = t.playRounds p1 p2 0 1 n r h1 h2
  | 0, _, _, _ => rfl
  | n + 1, r, h1, h2 => by
    have ih := playRounds_two_eq_zero t p1 p2 hA hB n (r + 1) h1 h2
    simp only [Tournament.playRounds, roundStep_mode0, roundStep_mode2, hA, hB, one_pow]
    rw [ih]

lemma playRounds_three_eq_one (t : Tournament) (p1 p2 : Player)
    (hA : p1.s3 = p1.s1) (hB : p2.s3 = p2.s1) :
    ∀ (n r : Nat) (h1 h2 : List Move),
      t.playRounds p1 p2 3 1 n r h1 h2 = t.playRounds p1 p2 1 1 n r h1 h2
  | 0, _, _, _ => rfl
  | n + 1, r, h1, h2 => by
    have ih := playRounds_three_eq_one t p1 p2 hA hB n (r + 1)
      (h1 ++ [p1.s1 h2 h1 1 t.pm]) (h2 ++ [p2.s1 h1 h2 1 t.pm])
    simp only [Tournament.playRounds, roundStep_mode1, roundStep_mode3, hA, hB, one_pow]
    rw [ih]

/-! Claim theorems. -/

/-- C1, counterexample: at the concrete configured value `rounds = 0` the
`while True` loop of `evaluate` still plays one round before the first
`r >= rounds` check, so the mode-0 score list has length 1, not 0. -/
theorem c1_counterexample :
    ((TMain.evaluate defectBot myPlayer 0 drawsTwo TMain.h4 TMain.h5).1 0).length ≠ 0 := by
  decide

/-- C1 (amended): for every pair of players and every configured
`rounds ≥ 1`, `Tournament.evaluate` plays exactly `rounds` rounds in each
of modes 0, 1, 2 and 3: `scores1[mode]` and `scores2[mode]` both have
length `rounds`.  (At `rounds = 0` the do-while loop still plays one
round.) -/
theorem c1_rounds_exact (t : Tournament) (p1 p2 : Player) (rounds : Nat) (dr : Draws)
    (h4 : ∃ r, stopRound t.discount_factor dr.d4 r)
    (h5 : ∃ r, stopRound t.discount_factor dr.d5 r)
    (hr : 1 ≤ rounds) (mode : Fin 6)
    (hm : mode = 0 ∨ mode = 1 ∨ mode = 2 ∨ mode = 3) :
    ((t.evaluate p1 p2 rounds dr h4 h5).1 mode).length = rounds ∧
    ((t.evaluate p1 p2 rounds dr h4 h5).2 mode).length = rounds := by
  have hd : t.modeRounds rounds dr h4 h5 mode = rounds := by
    rw [modeRounds_det t rounds dr h4 h5 mode hm]
    unfold detRounds
    omega
  exact ⟨by rw [evaluate_fst_length, hd], by rw [evaluate_snd_length, hd]⟩

theorem c1_rounds_exact_witness :
    ((TMain.evaluate defectBot myPlayer 3 drawsTwo TMain.h4 TMain.h5).1 0).length = 3 ∧
    ((TMain.evaluate defectBot myPlayer 3 drawsTwo TMain.h4 TMain.h5).2 0).length = 3 :=
  c1_rounds_exact TMain defectBot myPlayer 3 drawsTwo TMain.h4 TMain.h5 (by decide) 0
    (Or.inl rfl)

/-- C2: in every round of every mode, the payoff to player 2 is
`payoff_matrices[1][move1][move2]` — first index player 1's move, second
player 2's move — identically in the memory round (`play_round`) and the
blind round (`blind_round`). -/
theorem c2_payoff_indexing (t : Tournament) (p1 p2 : Player) (mode : Fin 6)
    (h1 h2 : List Move) (d : ℚ) :
    (t.play_round p1 p2 mode h1 h2 d).2.2.2 =
      t.pm.m2 (t.play_round p1 p2 mode h1 h2 d).1 (t.play_round p1 p2 mode h1 h2 d).2.1 ∧
    (t.blind_round p1 p2 mode d).2.2.2 =
      t.pm.m2 (t.blind_round p1 p2 mode d).1 (t.blind_round p1 p2 mode d).2.1 :=
  ⟨rfl, rfl⟩

/-- C3, counterexample: on an empty opponent history the default memory
strategies return 1 (defection), not the claimed cooperation (0) —
`history[-1] if history else 1`. -/
theorem c3_counterexample :
    strategy1 [] [] 0 pmMain ≠ 0 ∧ strategy3 [] [] 0 pmMain ≠ 0 ∧
      strategy5 [] [] 0 pmMain ≠ 0 := by
  decide

/-- C3 (amended): with opponent-history length below 20 the PST predictor
is not consulted; `strategy1`, `strategy3` and `strategy5` return the
opponent's last move, and return defection (1) — not cooperation — when
the opponent history is empty (`List.getLastD history 1`). -/
theorem c3_below_threshold (history myhistory : List Move) (d : ℚ) (pm : PayoffMatrices)
    (hlen : history.length < 20) :
    strategy1 history myhistory d pm = history.getLastD 1 ∧
    strategy3 history myhistory d pm = history.getLastD 1 ∧
    strategy5 history myhistory d pm = history.getLastD 1 := by
  have key : strategy1 history myhistory d pm = history.getLastD 1 := by
    unfold strategy1
    rw [if_pos hlen]
    by_cases h : history = []
    · subst h; rfl
    · rw [dif_neg h, List.getLastD_eq_getLast?, List.getLast?_eq_getLast _ h]
      rfl
  exact ⟨key, key, key⟩

theorem c3_below_threshold_witness :
    strategy1 [1, 0] [0, 1] 0 pmMain = 0 ∧ strategy3 [1, 0] [0, 1] 0 pmMain = 0 ∧
      strategy5 [1, 0] [0, 1] 0 pmMain = 0 := by
  obtain ⟨a, b, c⟩ := c3_below_threshold [1, 0] [0, 1] 0 pmMain (by decide)
  exact ⟨a.trans (by decide), b.trans (by decide), c.trans (by decide)⟩

/-- C4, counterexample: on a depth-2 tree built by `update` from the
history `[0,0,0,0,0]` and its own trailing context, the implemented walk
(`for d in range(depth, 1, -1)`) and the claimed walk of exactly `depth`
pairs ending at the most recent context element read their counts at
different nodes. -/
theorem c4_counterexample :
    probabilistic_suffix_tree.traverse pstCE 2
        (lastN [0, 0, 0, 0, 0] 2) (lastN [0, 0, 0, 0, 0] 2) ≠
      traverseDepthSteps pstCE 2 (lastN [0, 0, 0, 0, 0] 2) (lastN [0, 0, 0, 0, 0] 2) := by
  decide

/-- C4 (amended): the tree walk of `traverse` consumes exactly `depth - 1`
context pairs, from the oldest element of the trailing-`depth` context
(offset `-depth`) through the second-most-recent element (offset `-2`) —
the most recent pair is never consumed — before reading the four child
counts at the reached node. -/
theorem c4_walk_depth_minus_one (t : probabilistic_suffix_tree) (depth : Nat)
    (context1 context2 : List Move) :
    t.traverse depth context1 context2 =
      countsAt (walkNode t.root (offsetKeys context1 context2 depth (depth - 1))) ∧
    (offsetKeys context1 context2 depth (depth - 1)).length = depth - 1 := by
  have hca : ∀ o : Option PSTNode,
      (match o with | none => zeroCounts | some n => childCounts n) = countsAt o :=
    fun o => by cases o <;> rfl
  constructor
  · unfold probabilistic_suffix_tree.traverse
    rw [traverseGo_eq_walk]
    exact hca _
  · exact offsetKeys_length context1 context2 depth (depth - 1)

/-- C5: if any traversal step meets a missing child, `traverse` returns the
all-zero count map; and whenever the four counts read by `query` total 0
(the entirely-novel-context case included), `query` returns cooperation
(0). -/
theorem c5_missing_child_zero (t : probabilistic_suffix_tree) (depth : Nat)
    (c1 c2 history myhistory : List Move) :
    (walkNode t.root (offsetKeys c1 c2 depth (depth - 1)) = none →
      t.traverse depth c1 c2 = zeroCounts) ∧
    (((t.update history myhistory).traverse t.depth (lastN myhistory t.depth)
        (lastN history t.depth)).total = 0 →
      t.query history myhistory = 0) := by
  constructor
  · intro h
    unfold probabilistic_suffix_tree.traverse
    rw [traverseGo_eq_walk, h]
  · intro h
    simp only [probabilistic_suffix_tree.query, update_depth]
    rw [if_pos h]

theorem c5_missing_child_zero_witness :
    probabilistic_suffix_tree.traverse ⟨5, PSTNode.empty⟩ 5
        [0, 0, 0, 0, 0] [0, 0, 0, 0, 0] = zeroCounts ∧
    probabilistic_suffix_tree.query ⟨5, PSTNode.empty⟩
        [0, 0, 0, 0, 0, 0] [0, 0, 0, 0, 0, 0] = 0 :=
  ⟨(c5_missing_child_zero ⟨5, PSTNode.empty⟩ 5 [0, 0, 0, 0, 0] [0, 0, 0, 0, 0] [] []).1
      (by rfl),
   (c5_missing_child_zero ⟨5, PSTNode.empty⟩ 0 [] []
      [0, 0, 0, 0, 0, 0] [0, 0, 0, 0, 0, 0]).2 (by decide)⟩

/-- C6: in modes 4 and 5 at least one round is always played — the
stochastic stop check requires `r > 0`, so round 0 is unconditional and
both mode-4/5 score lists are non-empty. -/
theorem c6_stochastic_nonempty (t : Tournament) (p1 p2 : Player) (rounds : Nat)
    (dr : Draws)
    (h4 : ∃ r, stopRound t.discount_factor dr.d4 r)
    (h5 : ∃ r, stopRound t.discount_factor dr.d5 r)
    (mode : Fin 6) (hm : mode = 4 ∨ mode = 5) :
    (t.evaluate p1 p2 rounds dr h4 h5).1 mode ≠ [] ∧
    (t.evaluate p1 p2 rounds dr h4 h5).2 mode ≠ [] := by
  have hpos : 0 < t.modeRounds rounds dr h4 h5 mode := by
    rcases hm with h | h <;> subst h
    · exact (Nat.find_spec h4).1
    · exact (Nat.find_spec h5).1
  constructor
  · apply List.length_pos.mp
    rw [evaluate_fst_length]
    exact hpos
  · apply List.length_pos.mp
    rw [evaluate_snd_length]
    exact hpos

theorem c6_stochastic_nonempty_witness :
    (TMain.evaluate defectBot myPlayer 3 drawsTwo TMain.h4 TMain.h5).1 4 ≠ [] ∧
    (TMain.evaluate defectBot myPlayer 3 drawsTwo TMain.h4 TMain.h5).2 4 ≠ [] :=
  c6_stochastic_nonempty TMain defectBot myPlayer 3 drawsTwo TMain.h4 TMain.h5 4
    (Or.inl rfl)

/-- C7: after `Tournament.tournament`, for every pair `i ≠ j` and every
mode, `board[i][j][mode]` and `board[j][i][mode]` have equal length: the
unordered pair is evaluated once, entry `(i, j)` holds player i's score
lists, entry `(j, i)` the same match's lists from player j's perspective,
and within `evaluate` both lists are appended to together every round. -/
theorem c7_board_symmetry (t : Tournament) (rounds : Nat) (dr : Nat → Nat → Draws)
    (H4 : ∀ i j, ∃ r, stopRound t.discount_factor (dr i j).d4 r)
    (H5 : ∀ i j, ∃ r, stopRound t.discount_factor (dr i j).d5 r)
    (i j : Nat) (_hij : i ≠ j) (mode : Fin 6) :
    (t.tournament rounds dr H4 H5 i j mode).length =
      (t.tournament rounds dr H4 H5 j i mode).length := by
  unfold Tournament.tournament
  split_ifs <;> first | omega | simp [evaluate_fst_length, evaluate_snd_length]

theorem c7_board_symmetry_witness :
    (TMain.tournament 5 (fun _ _ => drawsTwo) (fun _ _ => TMain.h4)
        (fun _ _ => TMain.h5) 0 1 0).length =
      (TMain.tournament 5 (fun _ _ => drawsTwo) (fun _ _ => TMain.h4)
        (fun _ _ => TMain.h5) 1 0 0).length :=
  c7_board_symmetry TMain 5 (fun _ _ => drawsTwo) (fun _ _ => TMain.h4)
    (fun _ _ => TMain.h5) 0 1 (by decide) 0

/-- C8: for the blind modes 0, 2 and 4, `Player.play` passes only
`(discount, payoff_matrices)` to the strategy, so the returned move is
independent of the `history` and `myhistory` arguments: two calls
differing only in the histories return the same value. -/
theorem c8_blind_ignores_history (p : Player) (pm : PayoffMatrices)
    (history myhistory history' myhistory' : List Move) (mode : Fin 6) (d : ℚ)
    (hm : mode = 0 ∨ mode = 2 ∨ mode = 4) :
    p.play pm history myhistory mode d = p.play pm history' myhistory' mode d := by
  rcases hm with h | h | h <;> subst h <;> rfl

theorem c8_blind_ignores_history_witness :
    myPlayer.play pmMain [0, 1] [1, 1] 0 1 = myPlayer.play pmMain [] [] 0 1 :=
  c8_blind_ignores_history myPlayer pmMain [0, 1] [1, 1] [] [] 0 1 (Or.inl rfl)

/-- C9, counterexample: a legal player whose mode-0 slot cooperates while
its mode-2 slot defects makes the mode-2 score sequence differ from the
mode-0 one even at discount factor 1, because the two modes dispatch to
different strategy slots. -/
theorem c9_counterexample :
    (TOne.evaluate splitPlayer splitPlayer 1 drawsTwo TOne.h4 TOne.h5).1 2 ≠
      (TOne.evaluate splitPlayer splitPlayer 1 drawsTwo TOne.h4 TOne.h5).1 0 := by
  have hL : (TOne.evaluate splitPlayer splitPlayer 1 drawsTwo TOne.h4 TOne.h5).1 2 =
      [TOne.pm.m1 1 1 * TOne.discount_factor ^ 0] := rfl
  have hR : (TOne.evaluate splitPlayer splitPlayer 1 drawsTwo TOne.h4 TOne.h5).1 0 =
      [TOne.pm.m1 0 0 * 1] := rfl
  rw [hL, hR]
  norm_num [TOne, pmMain]

/-- C9 (amended): when the discount factor is 1, for every pair of players
whose mode-2 strategy slot equals their mode-0 slot and whose mode-3 slot
equals their mode-1 slot (as with the default template strategies),
`evaluate` yields identical score sequences for mode 2 as for mode 0 and
for mode 3 as for mode 1, the per-round weight `d ^ r` being 1. -/
theorem c9_discount_one (t : Tournament) (p1 p2 : Player) (rounds : Nat) (dr : Draws)
    (h4 : ∃ r, stopRound t.discount_factor dr.d4 r)
    (h5 : ∃ r, stopRound t.discount_factor dr.d5 r)
    (hd : t.discount_factor = 1)
    (h2A : p1.s2 = p1.s0) (h2B : p2.s2 = p2.s0)
    (h3A : p1.s3 = p1.s1) (h3B : p2.s3 = p2.s1) :
    (t.evaluate p1 p2 rounds dr h4 h5).1 2 = (t.evaluate p1 p2 rounds dr h4 h5).1 0 ∧
    (t.evaluate p1 p2 rounds dr h4 h5).2 2 = (t.evaluate p1 p2 rounds dr h4 h5).2 0 ∧
    (t.evaluate p1 p2 rounds dr h4 h5).1 3 = (t.evaluate p1 p2 rounds dr h4 h5).1 1 ∧
    (t.evaluate p1 p2 rounds dr h4 h5).2 3 = (t.evaluate p1 p2 rounds dr h4 h5).2 1 := by
  have hif0 : (if (0 : Fin 6) = 0 ∨ (0 : Fin 6) = 1 then (1 : ℚ) else t.discount_factor) = 1 :=
    if_pos (by decide)
  have hif1 : (if (1 : Fin 6) = 0 ∨ (1 : Fin 6) = 1 then (1 : ℚ) else t.discount_factor) = 1 :=
    if_pos (by decide)
  have hif2 : (if (2 : Fin 6) = 0 ∨ (2 : Fin 6) = 1 then (1 : ℚ) else t.discount_factor) = 1 := by
    rw [if_neg (by decide)]; exact hd
  have hif3 : (if (3 : Fin 6) = 0 ∨ (3 : Fin 6) = 1 then (1 : ℚ) else t.discount_factor) = 1 := by
    rw [if_neg (by decide)]; exact hd
  have e2 := playRounds_two_eq_zero t p1 p2 h2A h2B (t.modeRounds rounds dr h4 h5 2) 0 [] []
  have e3 := playRounds_three_eq_one t p1 p2 h3A h3B (t.modeRounds rounds dr h4 h5 3) 0 [] []
  refine ⟨?_, ?_, ?_, ?_⟩
  · rw [evaluate_fst t p1 p2 rounds dr h4 h5 2, evaluate_fst t p1 p2 rounds dr h4 h5 0,
      hif2, hif0]
    exact congrArg Prod.fst e2
  · rw [evaluate_snd t p1 p2 rounds dr h4 h5 2, evaluate_snd t p1 p2 rounds dr h4 h5 0,
      hif2, hif0]
    exact congrArg Prod.snd e2
  · rw [evaluate_fst t p1 p2 rounds dr h4 h5 3, evaluate_fst t p1 p2 rounds dr h4 h5 1,
      hif3, hif1]
    exact congrArg Prod.fst e3
  · rw [evaluate_snd t p1 p2 rounds dr h4 h5 3, evaluate_snd t p1 p2 rounds dr h4 h5 1,
      hif3, hif1]
    exact congrArg Prod.snd e3

theorem c9_discount_one_witness :
    (TOne.evaluate myPlayer myPlayer 5 drawsTwo TOne.h4 TOne.h5).1 2 =
      (TOne.evaluate myPlayer myPlayer 5 drawsTwo TOne.h4 TOne.h5).1 0 ∧
    (TOne.evaluate myPlayer myPlayer 5 drawsTwo TOne.h4 TOne.h5).2 2 =
      (TOne.evaluate myPlayer myPlayer 5 drawsTwo TOne.h4 TOne.h5).2 0 ∧
    (TOne.evaluate myPlayer myPlayer 5 drawsTwo TOne.h4 TOne.h5).1 3 =
      (TOne.evaluate myPlayer myPlayer 5 drawsTwo TOne.h4 TOne.h5).1 1 ∧
    (TOne.evaluate myPlayer myPlayer 5 drawsTwo TOne.h4 TOne.h5).2 3 =
      (TOne.evaluate myPlayer myPlayer 5 drawsTwo TOne.h4 TOne.h5).2 1 :=
  c9_discount_one TOne myPlayer myPlayer 5 drawsTwo TOne.h4 TOne.h5 rfl rfl rfl rfl rfl

/-- C10: `random.random()` draws lie in `[0, 1)`, so when the effective
discount is at least 1 (including the constructor default
`discount_factor=1.0`) the break condition `random.random() > disc` of the
mode-4/5 loop is never satisfiable: the loop has no reachable exit and the
stochastic modes terminate only under the precondition
`discount_factor < 1`. -/
theorem c10_no_stop_at_discount_ge_one (disc : ℚ) (draw : Nat → ℚ)
    (hdraw : ∀ r, draw r < 1) (hdisc : 1 ≤ disc) :
    ¬ ∃ r, stopRound disc draw r := by
  rintro ⟨r, hr⟩
  exact absurd hr.2 (not_lt.mpr ((hdraw r).le.trans hdisc))

theorem c10_no_stop_witness : ¬ ∃ r, stopRound 1 (fun _ => 1 / 2) r :=
  c10_no_stop_at_discount_ge_one 1 (fun _ => 1 / 2) (fun _ => by norm_num) (le_refl 1)

end IPD
